import Mathlib

/-!
Verification development for the tempo-to-toggl-sync repository.

The repository is a Deno/TypeScript program that copies time-tracking
records from Tempo (the source) into Toggl (the sink).  This file gives a
shallow embedding of the core pipeline:

* `src/lib/deduplication.ts` — `normalizeTimestamp`, `filterDuplicateEntries`;
* `src/lib/transform.ts` (the revision carrying the issue-key priority and
  the `task_id` field) — `transformTempoWorklogToToggl` and its batch form;
* the Tempo client's `enrichWorklogsWithIssueDetails`;
* the Toggl client's `createTimeEntries` loop;
* `src/services/sync-service.ts` — `SyncService.syncTimeEntries`.

`normalizeTimestamp` is `new Date(timestamp).toISOString()`.  We embed
`new Date(string)` as the engine runs it, in two stages (`jsDateParse`):
the ECMAScript Date Time String Format parser (`jsIsoParse`, returning
epoch milliseconds) and, when that rejects, a fragment of the V8/Deno
legacy fallback parser (`jsLegacyParse`, see its section comment for the
fragment's scope); `Date.prototype.toISOString` is `toISOString`.
Modelling notes:

* years are restricted to the four-digit form `YYYY` of the format (the
  extended `±YYYYYY` years are out of scope of this development);
* a date-time without a UTC offset, and every legacy-fallback date, is
  interpreted by the engine as local time; the model fixes the runtime's
  timezone to UTC;
* `Date.prototype.toISOString` throws a `RangeError` with message
  "Invalid time value" on an invalid date; fallible operations are embedded
  in `Except String`, carrying that message.

HTTP collaborators (fetching worklogs, fetching existing Toggl entries,
fetching one Jira issue, creating one Toggl entry) are modelled as oracle
functions returning `Except String` values, mirroring a settled promise:
`.ok` for a fulfilled await, `.error m` for a rejection whose `Error`
carries message `m`.
-/

/-! ## Civil-calendar arithmetic (the proleptic Gregorian calendar used by
ECMAScript `Date`) -/

/-- Gregorian leap-year predicate. -/
def isLeapYear (y : Int) : Bool :=
  y % 4 == 0 && (y % 100 != 0 || y % 400 == 0)

/-- Number of days in month `m` (1–12) of year `y`. -/
def daysInMonth (y : Int) (m : Nat) : Nat :=
  if m == 2 then (if isLeapYear y then 29 else 28)
  else if m == 4 || m == 6 || m == 9 || m == 11 then 30
  else 31

/-- Days since the epoch 1970-01-01 of the civil date `y-m-d`
(Hinnant's days-from-civil algorithm, with floor division). -/
def daysFromCivil (y : Int) (m d : Nat) : Int :=
  let y' : Int := if m ≤ 2 then y - 1 else y
  let era : Int := Int.fdiv y' 400
  let yoe : Int := y' - era * 400
  let mp : Int := if m > 2 then (m : Int) - 3 else (m : Int) + 9
  let doy : Int := Int.fdiv (153 * mp + 2) 5 + (d : Int) - 1
  let doe : Int := yoe * 365 + Int.fdiv yoe 4 - Int.fdiv yoe 100 + doy
  era * 146097 + doe - 719468

/-- Civil date `(year, month, day)` of a count of days since 1970-01-01
(Hinnant's civil-from-days algorithm). -/
def civilFromDays (z : Int) : Int × Nat × Nat :=
  let z' : Int := z + 719468
  let era : Int := Int.fdiv z' 146097
  let doe : Nat := (z' - era * 146097).toNat
  let yoe : Nat := (doe - doe / 1460 + doe / 36524 - doe / 146096) / 365
  let y : Int := (yoe : Int) + era * 400
  let doy : Nat := doe - (365 * yoe + yoe / 4 - yoe / 100)
  let mp : Nat := (5 * doy + 2) / 153
  let d : Nat := doy - (153 * mp + 2) / 5 + 1
  let m : Nat := if mp < 10 then mp + 3 else mp - 9
  (if m ≤ 2 then y + 1 else y, m, d)

/-! ## `Date.prototype.toISOString` -/

/-- Left-pad the decimal representation of `n` with zeros to width `w`. -/
def padNum (w : Nat) (n : Nat) : String :=
  let s := toString n
  String.mk (List.replicate (w - s.length) '0') ++ s

/-- Render an epoch-milliseconds value the way
`Date.prototype.toISOString` does: `YYYY-MM-DDTHH:mm:ss.sssZ`
(four-digit years suffice for every timestamp this model parses). -/
def toISOString (ms : Int) : String :=
  let days : Int := Int.fdiv ms 86400000
  let msod : Nat := (ms - days * 86400000).toNat
  let c := civilFromDays days
  let y : Int := c.1
  let yearStr : String :=
    if 0 ≤ y ∧ y ≤ 9999 then padNum 4 y.toNat
    else if y > 9999 then "+" ++ padNum 6 y.toNat
    else "-" ++ padNum 6 (-y).toNat
  yearStr ++ "-" ++ padNum 2 c.2.1 ++ "-" ++ padNum 2 c.2.2 ++
    "T" ++ padNum 2 (msod / 3600000) ++ ":" ++ padNum 2 (msod / 60000 % 60) ++
    ":" ++ padNum 2 (msod / 1000 % 60) ++ "." ++ padNum 3 (msod % 1000) ++ "Z"

/-! ## The ECMAScript Date Time String Format parser -/

/-- Numeric value of a decimal digit character. -/
def digitVal (c : Char) : Nat := c.toNat - 48

/-- Read exactly two decimal digits. -/
def takeDigits2 : List Char → Option (Nat × List Char)
  | c1 :: c2 :: rest =>
    if c1.isDigit && c2.isDigit then
      some (10 * digitVal c1 + digitVal c2, rest)
    else none
  | _ => none

/-- Read exactly four decimal digits. -/
def takeDigits4 : List Char → Option (Nat × List Char)
  | c1 :: c2 :: c3 :: c4 :: rest =>
    if c1.isDigit && c2.isDigit && c3.isDigit && c4.isDigit then
      some (1000 * digitVal c1 + 100 * digitVal c2 + 10 * digitVal c3 +
        digitVal c4, rest)
    else none
  | _ => none

/-- Read a required leading character. -/
def expectChar (c : Char) : List Char → Option (List Char)
  | x :: rest => if x == c then some rest else none
  | [] => none

/-- Value in milliseconds of a decimal-fraction digit string: the first
three digits, right-padded with zeros (the engine truncates finer
precision). -/
def fractionMs (ds : List Char) : Nat :=
  match ds with
  | [] => 0
  | [a] => 100 * digitVal a
  | [a, b] => 100 * digitVal a + 10 * digitVal b
  | a :: b :: c :: _ => 100 * digitVal a + 10 * digitVal b + digitVal c

/-- Read `.sss` (one or more fraction digits after a dot), in
milliseconds. -/
def takeFraction (l : List Char) : Option (Nat × List Char) :=
  match l with
  | '.' :: rest =>
    let ds := rest.takeWhile Char.isDigit
    if ds.isEmpty then none
    else some (fractionMs ds, rest.dropWhile Char.isDigit)
  | _ => none

/-- Read a UTC offset: `Z` or `±HH:mm`, as signed minutes. -/
def takeOffset : List Char → Option (Int × List Char)
  | 'Z' :: rest => some (0, rest)
  | '+' :: rest => do
    let (h, rest) ← takeDigits2 rest
    let rest ← expectChar ':' rest
    let (m, rest) ← takeDigits2 rest
    if h ≤ 23 ∧ m ≤ 59 then some ((h * 60 + m : Nat), rest) else none
  | '-' :: rest => do
    let (h, rest) ← takeDigits2 rest
    let rest ← expectChar ':' rest
    let (m, rest) ← takeDigits2 rest
    if h ≤ 23 ∧ m ≤ 59 then some (-((h * 60 + m : Nat) : Int), rest) else none
  | _ => none

/-- Read the time part `HH:mm[:ss[.sss]][offset]`; returns
`(hour, minute, second, millisecond, offset-minutes)` with `none` for an
absent offset. -/
def takeTime (l : List Char) : Option (Nat × Nat × Nat × Nat × Option Int) :=
  match takeDigits2 l with
  | none => none
  | some (h, rest) =>
    match expectChar ':' rest with
    | none => none
    | some rest =>
      match takeDigits2 rest with
      | none => none
      | some (mi, rest) =>
        let secPart : Nat × Nat × List Char :=
          match expectChar ':' rest with
          | none => (0, 0, rest)
          | some rest' =>
            match takeDigits2 rest' with
            | none => (0, 0, rest)
            | some (s, rest'') =>
              match takeFraction rest'' with
              | none => (s, 0, rest'')
              | some (ms, rest''') => (s, ms, rest''')
        let s := secPart.1
        let ms := secPart.2.1
        let rest2 := secPart.2.2
        let offPart : Option Int × List Char :=
          match takeOffset rest2 with
          | none => (none, rest2)
          | some (o, rest3) => (some o, rest3)
        if offPart.2.isEmpty ∧ mi ≤ 59 ∧ s ≤ 59 ∧
            (h ≤ 23 ∨ (h = 24 ∧ mi = 0 ∧ s = 0 ∧ ms = 0)) then
          some (h, mi, s, ms, offPart.1)
        else none

/-- First stage of `new Date(string)`: the ECMAScript Date Time String
Format, parsed into epoch milliseconds.  Grammar:
`YYYY[-MM[-DD]][THH:mm[:ss[.sss]][Z|±HH:mm]]`, with month, day, hour,
minute, second and offset fields range-checked the way the engine checks
them (out-of-range fields give an invalid date, hence `none`).  A
date-only form denotes UTC midnight; a date-time without an offset is
taken as UTC (see the module comment). -/
def jsIsoParse (s : String) : Option Int :=
  match takeDigits4 s.toList with
  | none => none
  | some (y, rest) =>
    let datePart : Option (Nat × Nat × List Char) :=
      match expectChar '-' rest with
      | none => some (1, 1, rest)
      | some rest' =>
        match takeDigits2 rest' with
        | none => none
        | some (m, rest'') =>
          match expectChar '-' rest'' with
          | none => some (m, 1, rest'')
          | some rest''' =>
            match takeDigits2 rest''' with
            | none => none
            | some (d, rest4) => some (m, d, rest4)
    match datePart with
    | none => none
    | some (m, d, rest) =>
      if 1 ≤ m ∧ m ≤ 12 ∧ 1 ≤ d ∧ d ≤ daysInMonth (y : Int) m then
        match rest with
        | [] => some (daysFromCivil (y : Int) m d * 86400000)
        | 'T' :: restT =>
          match takeTime restT with
          | none => none
          | some (h, mi, sec, ms, off) =>
            some (daysFromCivil (y : Int) m d * 86400000 +
              ((h * 3600 + mi * 60 + sec) * 1000 + ms : Nat) -
              (off.getD 0) * 60000)
        | _ => none
      else none

/-! ## The legacy fallback of `new Date(string)`

For a string that does not conform to the Date Time String Format,
ECMAScript lets `new Date` "fall back to any implementation-specific
heuristics or implementation-specific date formats".  The program runs on
Deno (V8), whose fallback parser silently accepts many non-ISO strings.
`jsLegacyParse` models a fragment of that fallback — slash-separated
dates (`2025/10/01`, `10/01/2025`), month-name dates (`October 1, 2025`,
`Oct 1 2025`, `1 October 2025`, month words matched case-insensitively by
prefixes of length ≥ 3), dash dates with one-or-two-digit fields or a
space-separated time (`2025-10-1`, `2025-10-01 09:00`), each with an
optional `H:MM[:SS]` time — interpreted as local time (UTC under this
model's fixed-timezone assumption).  Engine-specific forms beyond the
fragment (RFC-2822 dates with weekday words, timezone-name suffixes,
lone numbers, …) are outside the model: the model's reject set
approximates the engine's, which is implementation-defined there. -/

/-- Decimal value of a digit string. -/
def digitsVal (ds : List Char) : Nat :=
  ds.foldl (fun a c => 10 * a + digitVal c) 0

/-- Read one to `maxDigits` decimal digits; value, digit count, rest. -/
def takeNumUpTo (maxDigits : Nat) (l : List Char) :
    Option (Nat × Nat × List Char) :=
  let ds := l.takeWhile Char.isDigit
  if ds.length == 0 || maxDigits < ds.length then none
  else some (digitsVal ds, ds.length, l.dropWhile Char.isDigit)

/-- Drop leading spaces. -/
def skipSpaces (l : List Char) : List Char := l.dropWhile (fun c => c == ' ')

/-- Drop one leading comma, if present. -/
def dropComma : List Char → List Char
  | ',' :: rest => rest
  | l => l

/-- The twelve month names, lowercased. -/
def monthNames : List (List Char) :=
  ["january".toList, "february".toList, "march".toList, "april".toList,
   "may".toList, "june".toList, "july".toList, "august".toList,
   "september".toList, "october".toList, "november".toList,
   "december".toList]

/-- Month number of a lowercased word: any prefix of a month name of
length at least three (the engine's matching rule). -/
def monthFromWord (w : List Char) : Option Nat :=
  if w.length < 3 then none
  else (monthNames.findIdx? (fun nm => w.isPrefixOf nm)).map (fun i => i + 1)

/-- Read the legacy time tail after a date: optional `H:MM[:SS]` between
spaces, to `(hour, minute, second)`; an empty tail is midnight. -/
def legacyTimeTail (l : List Char) : Option (Nat × Nat × Nat) :=
  let l1 := skipSpaces l
  if l1.isEmpty then some (0, 0, 0)
  else
    match takeNumUpTo 2 l1 with
    | none => none
    | some (h, _, l2) =>
      match expectChar ':' l2 with
      | none => none
      | some l3 =>
        match takeNumUpTo 2 l3 with
        | none => none
        | some (mi, _, l4) =>
          let secPart : Option (Nat × List Char) :=
            match expectChar ':' l4 with
            | none => some (0, l4)
            | some l5 =>
              match takeNumUpTo 2 l5 with
              | none => none
              | some (s, _, l6) => some (s, l6)
          match secPart with
          | none => none
          | some (s, l7) =>
            if (skipSpaces l7).isEmpty ∧ h ≤ 23 ∧ mi ≤ 59 ∧ s ≤ 59 then
              some (h, mi, s)
            else none

/-- Epoch milliseconds of a legacy date plus time-of-day (local time,
fixed to UTC in this model). -/
def legacyEpoch (y : Int) (m d : Nat) (t : Nat × Nat × Nat) : Int :=
  daysFromCivil y m d * 86400000 +
    ((t.1 * 3600 + t.2.1 * 60 + t.2.2) * 1000 : Nat)

/-- Validate a legacy date's fields and parse its time tail. -/
def finishLegacy (y : Int) (m d : Nat) (rest : List Char) : Option Int :=
  if 1 ≤ m ∧ m ≤ 12 ∧ 1 ≤ d ∧ d ≤ daysInMonth y m then
    match legacyTimeTail rest with
    | some t => some (legacyEpoch y m d t)
    | none => none
  else none

/-- The modeled fragment of the engine's legacy fallback parser (see the
section comment for its scope). -/
def jsLegacyParse (s : String) : Option Int :=
  let l := s.toList.map Char.toLower
  match l with
  | [] => none
  | c :: _ =>
    if c.isDigit then
      match takeNumUpTo 4 l with
      | none => none
      | some (v1, cnt, l1) =>
        if cnt == 4 then
          match l1 with
          | '/' :: l2 =>
            (match takeNumUpTo 2 l2 with
             | some (m, _, l3) =>
               (match expectChar '/' l3 with
                | some l4 =>
                  (match takeNumUpTo 2 l4 with
                   | some (d, _, l5) => finishLegacy (v1 : Int) m d l5
                   | none => none)
                | none => none)
             | none => none)
          | '-' :: l2 =>
            (match takeNumUpTo 2 l2 with
             | some (m, _, l3) =>
               (match expectChar '-' l3 with
                | some l4 =>
                  (match takeNumUpTo 2 l4 with
                   | some (d, _, l5) => finishLegacy (v1 : Int) m d l5
                   | none => none)
                | none => none)
             | none => none)
          | _ => none
        else if cnt ≤ 2 then
          match l1 with
          | '/' :: l2 =>
            (match takeNumUpTo 2 l2 with
             | some (d, _, l3) =>
               (match expectChar '/' l3 with
                | some l4 =>
                  (match takeDigits4 l4 with
                   | some (y, l5) => finishLegacy (y : Int) v1 d l5
                   | none => none)
                | none => none)
             | none => none)
          | ' ' :: _ =>
            let l2 := skipSpaces l1
            (match monthFromWord (l2.takeWhile Char.isAlpha) with
             | some m =>
               let l3 := skipSpaces (dropComma
                 (skipSpaces (l2.dropWhile Char.isAlpha)))
               (match takeDigits4 l3 with
                | some (y, l4) => finishLegacy (y : Int) m v1 l4
                | none => none)
             | none => none)
          | _ => none
        else none
    else if c.isAlpha then
      match monthFromWord (l.takeWhile Char.isAlpha) with
      | some m =>
        let l1 := skipSpaces (l.dropWhile Char.isAlpha)
        (match takeNumUpTo 2 l1 with
         | some (d, _, l2) =>
           let l3 := skipSpaces (dropComma (skipSpaces l2))
           (match takeDigits4 l3 with
            | some (y, l4) => finishLegacy (y : Int) m d l4
            | none => none)
         | none => none)
      | none => none
    else none

/-- `new Date(string)` as the engine runs it: the Date Time String Format
first, then the legacy fallback. -/
def jsDateParse (s : String) : Option Int :=
  match jsIsoParse s with
  | some i => some i
  | none => jsLegacyParse s

example : jsIsoParse "2025/10/01" = none := by decide

example : jsDateParse "2025/10/01" = jsDateParse "2025-10-01" := by decide

example : jsDateParse "October 1, 2025 09:30" = some 1759311000000 := by
  decide

example : jsDateParse "1 Oct 2025" = some 1759276800000 := by decide

example : jsDateParse "2025-10-01 09:00" = some 1759309200000 := by decide

example : jsDateParse "not a timestamp" = none := by decide

/-! ## `normalizeTimestamp` (src/lib/deduplication.ts)

```ts
export function normalizeTimestamp(timestamp: string): string {
  return new Date(timestamp).toISOString();
}
```

`new Date(string)` never throws: an unparsable string yields an invalid
date.  `toISOString` on an invalid date throws
`RangeError: Invalid time value`, which propagates out of
`normalizeTimestamp` to its caller. -/

deriving instance DecidableEq for Except

/-- `normalizeTimestamp`: parse, then render canonically; the `RangeError`
thrown by `toISOString` on an invalid date is the `.error` branch. -/
def normalizeTimestamp (timestamp : String) : Except String String :=
  match jsDateParse timestamp with
  | some ms => .ok (toISOString ms)
  | none => .error "Invalid time value"

example : normalizeTimestamp "2025-10-01T09:00:00Z" =
    .ok "2025-10-01T09:00:00.000Z" := by decide

example : normalizeTimestamp "2025-10-01T11:00:00+02:00" =
    .ok "2025-10-01T09:00:00.000Z" := by decide

example : normalizeTimestamp "2025-10-01T09:00:00+00:00" =
    .ok "2025-10-01T09:00:00.000Z" := by decide

example : normalizeTimestamp "garbage" = .error "Invalid time value" := by
  decide

example : jsDateParse "2025-10-01T09:00:00Z" = some 1759309200000 := by
  decide

/-! ## Data model (src/types.ts)

Fields the embedded functions never read (`author`, `attributes`, the
`stop`/`tags` payload options, the metadata of fetched Toggl entries) are
omitted.  JavaScript optional values are `Option`; an *optional object
property* — where a key can be absent from the object altogether, or
present holding `undefined` — is `Option (Option _)`: `none` for an
absent key, `some none` for a key holding `undefined`, `some (some v)`
for a defined value. -/

/-- Jira issue attached to a worklog; `key` and `summary` are filled in
by enrichment. -/
structure Issue where
  self : String
  id : Int
  key : Option String := none
  summary : Option String := none
deriving DecidableEq, Repr

/-- A Tempo worklog.  `issue` is `Option` because the transformer and the
enricher access it with optional chaining (`worklog.issue?.self`). -/
structure TempoWorklog where
  self : String
  tempoWorklogId : Int
  issue : Option Issue
  timeSpentSeconds : Int
  billableSeconds : Int
  startDate : String
  startTime : String
  startDateTimeUtc : String
  description : Option String
  createdAt : String
  updatedAt : String
deriving DecidableEq, Repr

/-- Toggl time-entry payload object as the transformer builds it.
`project_id` and `task_id` are optional object properties (see the
`Option (Option _)` convention above). -/
structure TogglTimeEntryPayload where
  workspace_id : Int
  project_id : Option (Option Int) := none
  task_id : Option (Option Int) := none
  billable : Bool
  start : String
  duration : Int
  description : String
  created_with : String
deriving DecidableEq, Repr

/-- Transform configuration (`TempoToTogglConfig`). -/
structure TempoToTogglConfig where
  workspace_id : Int
  project_id : Option Int := none
  task_id : Option Int := none
  created_with : Option String := none
deriving DecidableEq, Repr

/-! ## JavaScript truthiness helpers -/

/-- Truthiness of a possibly-undefined string: `undefined` and `""` are
falsy. -/
def jsTruthyStr (o : Option String) : Bool := o.getD "" != ""

/-- Truthiness of a possibly-undefined number: `undefined` and `0` are
falsy (`NaN`, also falsy, does not arise in this integer model). -/
def jsTruthyInt (o : Option Int) : Bool :=
  match o with
  | some v => v != 0
  | none => false

/-- `a || b` on a possibly-undefined string: the default replaces both
`undefined` and `""`. -/
def jsOrStr (o : Option String) (dflt : String) : String :=
  match o with
  | some s => if s == "" then dflt else s
  | none => dflt

/-- JavaScript's WhiteSpace and LineTerminator code points, the set
`String.prototype.trim` strips. -/
def isJsWhitespace (c : Char) : Bool :=
  c == ' ' || c == '\t' || c == '\n' || c == '\r' ||
  c == '\x0b' || c == '\x0c' || c == '\u00a0' || c == '\ufeff' ||
  c == '\u1680' || ('\u2000' ≤ c && c ≤ '\u200a') || c == '\u2028' ||
  c == '\u2029' || c == '\u202f' || c == '\u205f' || c == '\u3000'

/-- `String.prototype.trim`: drop leading and trailing whitespace. -/
def jsTrim (s : String) : String :=
  String.mk
    (((s.toList.dropWhile isJsWhitespace).reverse.dropWhile
      isJsWhitespace).reverse)

/-- The optional chain `worklog.issue?.key`. -/
def issueKey (w : TempoWorklog) : Option String := w.issue.bind Issue.key

/-- The optional chain `worklog.issue?.self`. -/
def issueSelf (w : TempoWorklog) : Option String := w.issue.map Issue.self

/-! ## Record transformer (src/lib/transform.ts)

```ts
const billable = worklog.billableSeconds > 0;
let description = "";
if (worklog.issue?.key) {
  description = `${worklog.issue.key}: ${worklog.description || ""}`;
} else if (worklog.issue?.self) {
  description = `${worklog.issue.self} | ${worklog.description || ""}`;
} else {
  description = worklog.description || "";
}
const payload: TogglTimeEntryPayload = {
  workspace_id: config.workspace_id,
  task_id: config.task_id,
  billable,
  start: worklog.startDateTimeUtc,
  duration: worklog.timeSpentSeconds,
  description: description.trim(),
  created_with: config.created_with || "tempo-to-toggl-sync",
};
if (config.project_id) {
  payload.project_id = config.project_id;
}
return payload;
```
-/

/-- Transform a single Tempo worklog into a Toggl payload.  Note that the
object literal carries the `task_id` key unconditionally (its value is
`config.task_id`, possibly `undefined`), while `project_id` is added only
when `config.project_id` is truthy. -/
def transformTempoWorklogToToggl (worklog : TempoWorklog)
    (config : TempoToTogglConfig) : TogglTimeEntryPayload :=
  let billable := worklog.billableSeconds > 0
  let description :=
    if jsTruthyStr (issueKey worklog) then
      (issueKey worklog).getD "" ++ ": " ++ jsOrStr worklog.description ""
    else if jsTruthyStr (issueSelf worklog) then
      (issueSelf worklog).getD "" ++ " | " ++ jsOrStr worklog.description ""
    else
      jsOrStr worklog.description ""
  let payload : TogglTimeEntryPayload :=
    { workspace_id := config.workspace_id
      task_id := some config.task_id
      billable := billable
      start := worklog.startDateTimeUtc
      duration := worklog.timeSpentSeconds
      description := jsTrim description
      created_with := jsOrStr config.created_with "tempo-to-toggl-sync" }
  if jsTruthyInt config.project_id then
    { payload with project_id := some config.project_id }
  else
    payload

/-- Batch form: element-wise map, preserving order. -/
def transformTempoWorklogsToToggl (worklogs : List TempoWorklog)
    (config : TempoToTogglConfig) : List TogglTimeEntryPayload :=
  worklogs.map (fun worklog => transformTempoWorklogToToggl worklog config)

/-! ## Deduplicator (src/lib/deduplication.ts) -/

/-- Existing sink record: only the `start` field is consulted. -/
structure ExistingEntry where
  start : String
deriving DecidableEq, Repr

/-- Result of `filterDuplicateEntries`. -/
structure DeduplicationResult where
  uniqueEntries : List TogglTimeEntryPayload
  duplicates : List TogglTimeEntryPayload
  skippedCount : Nat
deriving DecidableEq, Repr

/-- Sequential left-to-right effectful map: `Array.prototype.map` over a
callback that can throw, propagating the first exception. -/
def mapMExcept (f : α → Except String β) : List α → Except String (List β)
  | [] => .ok []
  | x :: xs => do
    let y ← f x
    let ys ← mapMExcept f xs
    pure (y :: ys)

/-- `filterDuplicateEntries`: build the collection of normalized existing
start times (the JS `Set`, embedded as the list of normalized strings —
membership agrees with `Set.has`), then partition the candidates in input
order by membership of their normalized start.  An exception from
`normalizeTimestamp` (on either pass) propagates. -/
def filterDuplicateEntries (newEntries : List TogglTimeEntryPayload)
    (existingEntries : List ExistingEntry) :
    Except String DeduplicationResult := do
  let existingStartTimes ←
    mapMExcept (fun entry => normalizeTimestamp entry.start) existingEntries
  let tagged ←
    mapMExcept (fun newEntry =>
      (normalizeTimestamp newEntry.start).map (fun normalizedStart =>
        (newEntry, existingStartTimes.contains normalizedStart))) newEntries
  let duplicates := (tagged.filter (fun p => p.2)).map (fun p => p.1)
  let uniqueEntries := (tagged.filter (fun p => !p.2)).map (fun p => p.1)
  pure { uniqueEntries := uniqueEntries
         duplicates := duplicates
         skippedCount := duplicates.length }

/-! ## Enricher (Tempo client, `enrichWorklogsWithIssueDetails`) -/

/-- Resolved Jira issue detail as `fetchJiraIssue` returns it. -/
structure IssueDetails where
  key : String
  summary : String
deriving DecidableEq, Repr

/-- One step of collecting distinct issue URLs: `Set.add` guarded by the
truthiness of `worklog.issue?.self`. -/
def addIssueUrl (acc : List String) (w : TempoWorklog) : List String :=
  match w.issue with
  | some i => if i.self != "" && !(acc.contains i.self) then acc ++ [i.self]
              else acc
  | none => acc

/-- The `Set` of distinct truthy `issue.self` URLs, in first-occurrence
order. -/
def uniqueIssueUrls (worklogs : List TempoWorklog) : List String :=
  worklogs.foldl addIssueUrl []

/-- Enrich worklogs with issue details.  `fetchJiraIssue` is the lookup
collaborator (one call per distinct URL; the parallel fan-out is modelled
by its joined result).  A failed lookup is caught and recorded as
empty-string details; worklogs referencing a fetched URL get `key` and
`summary` attached, all others pass through unchanged. -/
def enrichWorklogsWithIssueDetails
    (fetchJiraIssue : String → Except String IssueDetails)
    (worklogs : List TempoWorklog) : List TempoWorklog :=
  let urls := uniqueIssueUrls worklogs
  let issueDetailsMap : List (String × IssueDetails) :=
    urls.map (fun url =>
      (url, match fetchJiraIssue url with
            | .ok details => details
            | .error _ => { key := "", summary := "" }))
  worklogs.map (fun worklog =>
    match worklog.issue with
    | some issue =>
      if issue.self != "" then
        match issueDetailsMap.lookup issue.self with
        | some details =>
          { worklog with
            issue := some { issue with
                            key := some details.key
                            summary := some details.summary } }
        | none => worklog
      else worklog
    | none => worklog)

/-! ## Creation loop (Toggl client, `createTimeEntries`) -/

/-- Created Toggl entry; only its identity matters to the sync result. -/
structure TogglTimeEntry where
  id : Int
deriving DecidableEq, Repr

/-- Result accumulator of `createTimeEntries`. -/
structure CreateEntriesResult where
  success : List TogglTimeEntry
  failed : List (TogglTimeEntryPayload × String)
  successCount : Nat
  failedCount : Nat
deriving DecidableEq, Repr

/-- `createTimeEntries`: the sequential `for … of` loop with a per-entry
`try`/`catch`, expressed as structural recursion (the loop's appends
become conses onto the result of processing the remaining entries, which
yields the same lists in the same order). -/
def createTimeEntries (createOne : TogglTimeEntryPayload →
    Except String TogglTimeEntry) :
    List TogglTimeEntryPayload → CreateEntriesResult
  | [] => { success := [], failed := [], successCount := 0, failedCount := 0 }
  | entry :: rest =>
    let r := createTimeEntries createOne rest
    match createOne entry with
    | .ok createdEntry =>
      { r with success := createdEntry :: r.success
               successCount := r.successCount + 1 }
    | .error e =>
      { r with failed := (entry, e) :: r.failed
               failedCount := r.failedCount + 1 }

/-! ## Sync orchestrator (src/services/sync-service.ts) -/

/-- Aggregate result of one sync run. -/
structure SyncResult where
  tempoEntriesFetched : Nat
  togglEntriesFetched : Nat
  uniqueEntries : Nat
  duplicatesSkipped : Nat
  successfullyCreated : Nat
  failedToCreate : Nat
  errors : List String
deriving DecidableEq, Repr

/-- The collaborator interface the sync service is constructed over: the
Tempo client's two methods, and the Toggl client's fetch and per-entry
create.  Each models one awaited call; `.error m` is a rejection whose
error message is `m` (a non-`Error` rejection value surfaces as the fixed
message "Unknown error occurred", which this string model folds into
`m`). -/
structure SyncEnv where
  fetchWorklogs : String → String → Except String (List TempoWorklog)
  enrichWorklogs : List TempoWorklog → Except String (List TempoWorklog)
  fetchTimeEntries : String → String → Except String (List ExistingEntry)
  createTimeEntry : TogglTimeEntryPayload → Except String TogglTimeEntry

/-- `SyncService.syncTimeEntries`: fetch source → enrich → fetch sink →
transform → dedupe → create, inside one `try`; any thrown step lands in
the `catch`, which returns the zero result carrying the single error
message.  On the success path the per-creation failures are mapped into
`errors`.  (The console logging steps are effect-free here.) -/
def syncTimeEntries (env : SyncEnv) (transformConfig : TempoToTogglConfig)
    (fromDate toDate : String) : SyncResult :=
  let run : Except String SyncResult := do
    let tempoWorklogs ← env.fetchWorklogs fromDate toDate
    let enrichedWorklogs ← env.enrichWorklogs tempoWorklogs
    let togglEntries ← env.fetchTimeEntries fromDate toDate
    let transformedEntries :=
      transformTempoWorklogsToToggl enrichedWorklogs transformConfig
    let deduplicationResult ←
      filterDuplicateEntries transformedEntries togglEntries
    let createResult :=
      createTimeEntries env.createTimeEntry deduplicationResult.uniqueEntries
    let errors := createResult.failed.map (fun f =>
      "Failed to create entry: " ++ f.2)
    pure { tempoEntriesFetched := tempoWorklogs.length
           togglEntriesFetched := togglEntries.length
           uniqueEntries := deduplicationResult.uniqueEntries.length
           duplicatesSkipped := deduplicationResult.skippedCount
           successfullyCreated := createResult.successCount
           failedToCreate := createResult.failedCount
           errors := errors }
  match run with
  | .ok result => result
  | .error m =>
    { tempoEntriesFetched := 0
      togglEntriesFetched := 0
      uniqueEntries := 0
      duplicatesSkipped := 0
      successfullyCreated := 0
      failedToCreate := 0
      errors := [m] }

/-! ## Projection lemmas for the transformer -/

/-- The transformed description, closed form: priority to a truthy issue
key, then to a truthy issue URL, else the raw description, trimmed. -/
theorem transform_description_eq (worklog : TempoWorklog)
    (config : TempoToTogglConfig) :
    (transformTempoWorklogToToggl worklog config).description =
      jsTrim (if jsTruthyStr (issueKey worklog) then
        (issueKey worklog).getD "" ++ ": " ++ jsOrStr worklog.description ""
      else if jsTruthyStr (issueSelf worklog) then
        (issueSelf worklog).getD "" ++ " | " ++ jsOrStr worklog.description ""
      else jsOrStr worklog.description "") := by
  unfold transformTempoWorklogToToggl
  by_cases hp : jsTruthyInt config.project_id = true <;> simp [hp]

/-- The transformed `project_id` property, closed form. -/
theorem transform_project_id_eq (worklog : TempoWorklog)
    (config : TempoToTogglConfig) :
    (transformTempoWorklogToToggl worklog config).project_id =
      (if jsTruthyInt config.project_id then some config.project_id
       else none) := by
  unfold transformTempoWorklogToToggl
  by_cases hp : jsTruthyInt config.project_id = true <;> simp [hp]

/-- The transformed `task_id` property, closed form: the key is always
present, holding `config.task_id`. -/
theorem transform_task_id_eq (worklog : TempoWorklog)
    (config : TempoToTogglConfig) :
    (transformTempoWorklogToToggl worklog config).task_id =
      some config.task_id := by
  unfold transformTempoWorklogToToggl
  by_cases hp : jsTruthyInt config.project_id = true <;> simp [hp]

/-! ## Demo inputs shared by witnesses and counterexamples -/

/-- Demo issue with a resolved key. -/
def demoIssueKeyed : Issue :=
  { self := "https://jira.example.com/rest/api/2/issue/1", id := 1,
    key := some "WEB-1", summary := some "summary" }

/-- Demo issue with only the reference URI (enrichment absent). -/
def demoIssueBare : Issue :=
  { self := "https://x/issue/9", id := 9 }

/-- Demo worklog with a resolved issue key and description "fix bug". -/
def demoWorklogKeyed : TempoWorklog :=
  { self := "https://api.tempo.io/4/worklogs/123", tempoWorklogId := 123,
    issue := some demoIssueKeyed, timeSpentSeconds := 3600,
    billableSeconds := 3600, startDate := "2025-10-01",
    startTime := "09:00:00", startDateTimeUtc := "2025-10-01T09:00:00Z",
    description := some "fix bug", createdAt := "2025-10-01T10:00:00Z",
    updatedAt := "2025-10-01T10:00:00Z" }

/-- Demo worklog whose issue has only the reference URI. -/
def demoWorklogBare : TempoWorklog :=
  { demoWorklogKeyed with issue := some demoIssueBare,
                          description := some "call" }

/-- Demo worklog with no issue and no description. -/
def demoWorklogPlain : TempoWorklog :=
  { demoWorklogKeyed with issue := none, description := none }

/-- Demo configuration that omits both optional identifiers. -/
def demoConfigBare : TempoToTogglConfig :=
  { workspace_id := 123, created_with := some "test" }

/-- Demo configuration that supplies both optional identifiers. -/
def demoConfigFull : TempoToTogglConfig :=
  { workspace_id := 123, project_id := some 7, task_id := some 9,
    created_with := some "test" }

/-! ## C2 / C8 — timestamp normalization -/

/-- C2: two valid ISO-8601 timestamp strings that denote the same instant
(the parser maps both to the same epoch value, whatever their offset
notation) normalize to the same canonical string. -/
theorem normalizeTimestamp_same_instant (t1 t2 : String) (i : Int)
    (h1 : jsDateParse t1 = some i) (h2 : jsDateParse t2 = some i) :
    normalizeTimestamp t1 = normalizeTimestamp t2 := by
  simp [normalizeTimestamp, h1, h2]

/-- Witness for C2: `...Z` and `...+02:00` spellings of the instant
2025-10-01T09:00:00Z normalize identically. -/
theorem normalizeTimestamp_same_instant_witness :
    jsDateParse "2025-10-01T09:00:00Z" = some 1759309200000 ∧
    jsDateParse "2025-10-01T11:00:00+02:00" = some 1759309200000 ∧
    normalizeTimestamp "2025-10-01T09:00:00Z" =
      normalizeTimestamp "2025-10-01T11:00:00+02:00" :=
  ⟨by decide, by decide,
    normalizeTimestamp_same_instant "2025-10-01T09:00:00Z"
      "2025-10-01T11:00:00+02:00" 1759309200000 (by decide) (by decide)⟩

/-- Counterexample to C8 as stated: `"2025/10/01"` and
`"October 1, 2025"` are not parsable ISO-8601 timestamps, yet the
runtime's fallback date parser accepts them, so normalization silently
succeeds on them instead of failing with a `MalformedTimestamp` error. -/
theorem normalizeTimestamp_accepts_legacy_non_iso :
    jsIsoParse "2025/10/01" = none ∧
    normalizeTimestamp "2025/10/01" = .ok "2025-10-01T00:00:00.000Z" ∧
    jsIsoParse "October 1, 2025" = none ∧
    normalizeTimestamp "October 1, 2025" =
      .ok "2025-10-01T00:00:00.000Z" := by
  refine ⟨by decide, by decide, by decide, by decide⟩

/-- C8 (amended): on a string the engine's date parser rejects outright —
neither the ISO-8601 format nor the legacy fallback parses it —
normalization fails with the propagated invalid-time error (the
`RangeError` that `Date.prototype.toISOString` throws on an invalid
date) and never silently produces a normalized string; non-ISO strings
the fallback accepts normalize silently instead. -/
theorem normalizeTimestamp_malformed (s : String)
    (h : jsDateParse s = none) :
    normalizeTimestamp s = .error "Invalid time value" ∧
    ∀ out, normalizeTimestamp s ≠ .ok out := by
  constructor
  · simp [normalizeTimestamp, h]
  · intro out
    simp [normalizeTimestamp, h]

/-- Witness for C8: the string "not a timestamp" is rejected by both
parser stages and normalization errors on it. -/
theorem normalizeTimestamp_malformed_witness :
    jsDateParse "not a timestamp" = none ∧
    (normalizeTimestamp "not a timestamp" = .error "Invalid time value" ∧
      ∀ out, normalizeTimestamp "not a timestamp" ≠ .ok out) :=
  ⟨by decide, normalizeTimestamp_malformed "not a timestamp" (by decide)⟩

/-! ## C3 — description composition -/

/-- C3: the transformed description is composed in priority order — a
truthy resolved issue key gives `"{code}: {description}"`, else a truthy
issue reference URI gives `"{uri} | {description}"`, else the raw
description; the composition is trimmed, and a missing raw description is
the empty string (`jsOrStr worklog.description ""`). -/
theorem transform_description_priority (worklog : TempoWorklog)
    (config : TempoToTogglConfig) :
    (∀ k, issueKey worklog = some k → k ≠ "" →
      (transformTempoWorklogToToggl worklog config).description =
        jsTrim (k ++ ": " ++ jsOrStr worklog.description "")) ∧
    (jsTruthyStr (issueKey worklog) = false →
      ∀ u, issueSelf worklog = some u → u ≠ "" →
      (transformTempoWorklogToToggl worklog config).description =
        jsTrim (u ++ " | " ++ jsOrStr worklog.description "")) ∧
    (jsTruthyStr (issueKey worklog) = false →
      jsTruthyStr (issueSelf worklog) = false →
      (transformTempoWorklogToToggl worklog config).description =
        jsTrim (jsOrStr worklog.description "")) := by
  refine ⟨?_, ?_, ?_⟩
  · intro k hk hkne
    rw [transform_description_eq]
    simp [hk, jsTruthyStr, hkne]
  · intro hkf u hu hune
    rw [transform_description_eq, hkf]
    simp [hu, jsTruthyStr, hune]
  · intro hkf hsf
    rw [transform_description_eq]
    simp [hkf, hsf]

/-- Witness for C3: a keyed worklog gives "WEB-1: fix bug", a bare-URI
worklog gives "https://x/issue/9 | call", a plain worklog gives "". -/
theorem transform_description_priority_witness :
    (transformTempoWorklogToToggl demoWorklogKeyed demoConfigBare
        ).description = "WEB-1: fix bug" ∧
    (transformTempoWorklogToToggl demoWorklogBare demoConfigBare
        ).description = "https://x/issue/9 | call" ∧
    (transformTempoWorklogToToggl demoWorklogPlain demoConfigBare
        ).description = "" := by
  refine ⟨?_, ?_, ?_⟩
  · rw [(transform_description_priority demoWorklogKeyed demoConfigBare).1
      "WEB-1" (by decide) (by decide)]
    decide
  · rw [(transform_description_priority demoWorklogBare demoConfigBare).2.1
      (by decide) "https://x/issue/9" (by decide) (by decide)]
    decide
  · rw [(transform_description_priority demoWorklogPlain demoConfigBare).2.2
      (by decide) (by decide)]
    decide

/-! ## C6 — conditional inclusion of `project_id` / `task_id` -/

/-- Counterexample to C6 as stated: with a configuration that omits
`task_id`, the transformed payload still carries the `task_id` property
(holding `undefined`, i.e. `some none`), rather than omitting the field
entirely. -/
theorem transform_task_id_present_when_config_omits_it :
    demoConfigBare.task_id = none ∧
    (transformTempoWorklogToToggl demoWorklogKeyed demoConfigBare).task_id ≠
      none := by
  constructor
  · rfl
  · rw [transform_task_id_eq]
    simp

/-- C6 (amended): `project_id` is included only when the configuration
supplies a truthy value, and omitted entirely when the configuration
omits it; `task_id`, in contrast, is always present as a property whose
value is the configured one — `undefined` (`some none`) when the
configuration omits it, never `null` or zero. -/
theorem transform_optional_field_inclusion (worklog : TempoWorklog)
    (config : TempoToTogglConfig) :
    ((transformTempoWorklogToToggl worklog config).project_id ≠ none →
      jsTruthyInt config.project_id = true) ∧
    (config.project_id = none →
      (transformTempoWorklogToToggl worklog config).project_id = none) ∧
    (jsTruthyInt config.project_id = true →
      (transformTempoWorklogToToggl worklog config).project_id =
        some config.project_id) ∧
    (transformTempoWorklogToToggl worklog config).task_id =
      some config.task_id := by
  refine ⟨?_, ?_, ?_, transform_task_id_eq worklog config⟩
  · intro hne
    rw [transform_project_id_eq] at hne
    by_cases hp : jsTruthyInt config.project_id = true
    · exact hp
    · simp [hp] at hne
  · intro hnone
    rw [transform_project_id_eq]
    simp [jsTruthyInt, hnone]
  · intro hp
    rw [transform_project_id_eq]
    simp [hp]

/-- Witness for the amended C6, at a configuration providing `project_id`
and one omitting it. -/
theorem transform_optional_field_inclusion_witness :
    (transformTempoWorklogToToggl demoWorklogKeyed demoConfigFull
        ).project_id = some (some 7) ∧
    (transformTempoWorklogToToggl demoWorklogKeyed demoConfigBare
        ).project_id = none ∧
    (transformTempoWorklogToToggl demoWorklogKeyed demoConfigFull).task_id =
      some (some 9) := by
  refine ⟨?_, ?_, ?_⟩
  · rw [(transform_optional_field_inclusion demoWorklogKeyed
      demoConfigFull).2.2.1 (by decide)]
    rfl
  · exact (transform_optional_field_inclusion demoWorklogKeyed
      demoConfigBare).2.1 rfl
  · rw [(transform_optional_field_inclusion demoWorklogKeyed
      demoConfigFull).2.2.2]
    rfl

/-! ## C1 / C10 — deduplication -/

/-- Duplicate predicate of the spec: a candidate is a duplicate iff its
normalized start instant exactly equals the normalized start instant of
some existing record (both normalizations succeeding). -/
def isDuplicateOf (existingEntries : List ExistingEntry)
    (entry : TogglTimeEntryPayload) : Bool :=
  match normalizeTimestamp entry.start with
  | .ok b => existingEntries.any (fun x =>
      match normalizeTimestamp x.start with
      | .ok a => b == a
      | .error _ => false)
  | .error _ => false

/-- Inversion of a successful `mapMExcept` on a cons cell. -/
theorem mapMExcept_cons_ok {f : α → Except String β} {x : α} {xs : List α}
    {ys : List β} (h : mapMExcept f (x :: xs) = .ok ys) :
    ∃ y ys', f x = .ok y ∧ mapMExcept f xs = .ok ys' ∧ ys = y :: ys' := by
  cases hfx : f x with
  | error e => simp [mapMExcept, hfx, Bind.bind, Except.bind] at h
  | ok y =>
    cases hrest : mapMExcept f xs with
    | error e => simp [mapMExcept, hfx, hrest, Bind.bind, Except.bind] at h
    | ok ys' =>
      simp [mapMExcept, hfx, hrest, Bind.bind, Except.bind, pure,
        Except.pure] at h
      exact ⟨y, ys', rfl, rfl, h.symm⟩

/-- Inversion of a successful `mapMExcept` on nil. -/
theorem mapMExcept_nil_ok {f : α → Except String β} {ys : List β}
    (h : mapMExcept f [] = .ok ys) : ys = [] := by
  simp [mapMExcept] at h
  exact h

/-- Membership in the successfully-normalized list equals an existence
test over the original entries. -/
theorem mapMExcept_contains (f : α → Except String String) :
    ∀ (xs : List α) (ys : List String), mapMExcept f xs = .ok ys →
    ∀ v : String, ys.contains v =
      xs.any (fun x => match f x with
        | .ok a => v == a
        | .error _ => false) := by
  intro xs
  induction xs with
  | nil =>
    intro ys h v
    rw [mapMExcept_nil_ok h]
    rfl
  | cons x xs ih =>
    intro ys h v
    obtain ⟨y, ys', hfx, hrest, hcons⟩ := mapMExcept_cons_ok h
    subst hcons
    simp only [List.contains_cons, List.any_cons, hfx]
    rw [ih ys' hrest v]

/-- Set-membership test of a candidate's normalized start against the
normalized existing start times. -/
def memNormSet (names : List String) (e : TogglTimeEntryPayload) : Bool :=
  match normalizeTimestamp e.start with
  | .ok n => names.contains n
  | .error _ => false

/-- The tag computed for each candidate is its set-membership bit, so the
two tag-driven filters are the two predicate-driven filters of the
candidates. -/
theorem mapMExcept_tagged_filters (names : List String) :
    ∀ (news : List TogglTimeEntryPayload)
      (tagged : List (TogglTimeEntryPayload × Bool)),
    mapMExcept (fun newEntry =>
      (normalizeTimestamp newEntry.start).map (fun normalizedStart =>
        (newEntry, names.contains normalizedStart))) news = .ok tagged →
    (tagged.filter (fun p => p.2)).map (fun p => p.1) =
      news.filter (memNormSet names) ∧
    (tagged.filter (fun p => !p.2)).map (fun p => p.1) =
      news.filter (fun e => !(memNormSet names e)) := by
  intro news
  induction news with
  | nil =>
    intro tagged h
    rw [mapMExcept_nil_ok h]
    exact ⟨rfl, rfl⟩
  | cons e news ih =>
    intro tagged h
    obtain ⟨t, rest, hge, hrest, hcons⟩ := mapMExcept_cons_ok h
    subst hcons
    cases hne : normalizeTimestamp e.start with
    | error msg => simp [hne, Except.map] at hge
    | ok n =>
      rw [hne] at hge
      simp only [Except.map] at hge
      obtain rfl : (e, names.contains n) = t := by
        injection hge
      have ihr := ih rest hrest
      have hm : memNormSet names e = names.contains n := by
        simp only [memNormSet, hne]
      cases hcn : names.contains n with
      | false =>
        have hpe : memNormSet names e = false := hm.trans hcn
        refine ⟨?_, ?_⟩
        · rw [List.filter_cons_of_neg (by simp [hcn]), ihr.1,
            List.filter_cons_of_neg (by simp [hpe])]
        · rw [List.filter_cons_of_pos (by simp [hcn]), List.map_cons,
            ihr.2, List.filter_cons_of_pos (by simp [hpe])]
      | true =>
        have hpe : memNormSet names e = true := hm.trans hcn
        refine ⟨?_, ?_⟩
        · rw [List.filter_cons_of_pos (by simp [hcn]), List.map_cons,
            ihr.1, List.filter_cons_of_pos (by simp [hpe])]
        · rw [List.filter_cons_of_neg (by simp [hcn]), ihr.2,
            List.filter_cons_of_neg (by simp [hpe])]

/-- Characterization of a successful `filterDuplicateEntries` run: the
two output lists are the input-order filters of the candidates by the
spec's duplicate predicate, and the skipped count is the number of
duplicates. -/
theorem filterDuplicateEntries_ok_characterization
    (news : List TogglTimeEntryPayload) (existing : List ExistingEntry)
    (r : DeduplicationResult)
    (h : filterDuplicateEntries news existing = .ok r) :
    r.duplicates = news.filter (isDuplicateOf existing) ∧
    r.uniqueEntries = news.filter (fun e => !(isDuplicateOf existing e)) ∧
    r.skippedCount = r.duplicates.length := by
  unfold filterDuplicateEntries at h
  cases hex : mapMExcept (fun entry => normalizeTimestamp entry.start)
      existing with
  | error e =>
    rw [hex] at h
    simp only [Bind.bind, Except.bind] at h
    exact Except.noConfusion h
  | ok names =>
    rw [hex] at h
    simp only [Bind.bind, Except.bind] at h
    cases htag : mapMExcept (fun newEntry =>
        (normalizeTimestamp newEntry.start).map (fun normalizedStart =>
          (newEntry, names.contains normalizedStart))) news with
    | error e =>
      rw [htag] at h
      exact Except.noConfusion h
    | ok tagged =>
      rw [htag] at h
      simp only [pure, Except.pure] at h
      injection h with h
      subst h
      have hfil := mapMExcept_tagged_filters names news tagged htag
      have hpt : ∀ e, memNormSet names e = isDuplicateOf existing e := by
        intro e
        cases hne : normalizeTimestamp e.start with
        | error msg => simp [memNormSet, isDuplicateOf, hne]
        | ok n =>
          simp only [memNormSet, isDuplicateOf, hne]
          exact mapMExcept_contains _ existing names hex n
      refine ⟨?_, ?_, rfl⟩
      · rw [hfil.1]
        exact List.filter_congr (fun x _ => hpt x)
      · rw [hfil.2]
        exact List.filter_congr (fun x _ => by rw [hpt x])

/-- Demo payload with start `2025-10-01T09:00:00Z`. -/
def demoPayload1 : TogglTimeEntryPayload :=
  { workspace_id := 123, billable := true, start := "2025-10-01T09:00:00Z",
    duration := 3600, description := "Entry 1", created_with := "test" }

/-- Demo payload with start `2025-10-01T10:00:00Z`. -/
def demoPayload2 : TogglTimeEntryPayload :=
  { demoPayload1 with start := "2025-10-01T10:00:00Z",
                      description := "Entry 2" }

/-- Demo payload whose start spells `demoPayload2`'s instant with an
explicit `+00:00` offset. -/
def demoPayload3 : TogglTimeEntryPayload :=
  { demoPayload1 with start := "2025-10-01T10:00:00+00:00",
                      description := "Entry 3" }

/-- Demo existing sink record at `2025-10-01T09:00:00+00:00` — the same
instant as `demoPayload1`, spelled with an offset. -/
def demoExisting : List ExistingEntry :=
  [{ start := "2025-10-01T09:00:00+00:00" }]

/-- Expected deduplication result for `[demoPayload1, demoPayload2]`
against `demoExisting`. -/
def demoDedup : DeduplicationResult :=
  { uniqueEntries := [demoPayload2], duplicates := [demoPayload1],
    skippedCount := 1 }

/-- Expected deduplication result for `[demoPayload2, demoPayload3]`
against `demoExisting`: both survive, although they duplicate each
other. -/
def demoDedup2 : DeduplicationResult :=
  { uniqueEntries := [demoPayload2, demoPayload3], duplicates := [],
    skippedCount := 0 }

/-- C1: on a successful run, `filterDuplicateEntries` puts a candidate in
`duplicates` iff its normalized start instant equals some existing
record's normalized start instant, both outputs preserve candidate
order (they are the duplicate/non-duplicate filters of the input),
`skippedCount = duplicates.length`, `uniqueEntries ++ duplicates` is a
permutation of the candidates, empty candidates give empty outputs with
count 0, and empty existing records leave every candidate unique. -/
theorem filterDuplicateEntries_partition (news : List TogglTimeEntryPayload)
    (existing : List ExistingEntry) (r : DeduplicationResult)
    (h : filterDuplicateEntries news existing = .ok r) :
    r.duplicates = news.filter (isDuplicateOf existing) ∧
    r.uniqueEntries = news.filter (fun e => !(isDuplicateOf existing e)) ∧
    r.skippedCount = r.duplicates.length ∧
    (r.uniqueEntries ++ r.duplicates).Perm news ∧
    (news = [] →
      r.uniqueEntries = [] ∧ r.duplicates = [] ∧ r.skippedCount = 0) ∧
    (existing = [] →
      r.uniqueEntries = news ∧ r.duplicates = [] ∧ r.skippedCount = 0) := by
  obtain ⟨hd, hu, hs⟩ :=
    filterDuplicateEntries_ok_characterization news existing r h
  refine ⟨hd, hu, hs, ?_, ?_, ?_⟩
  · rw [hu, hd]
    have hperm :=
      List.filter_append_perm (fun e => !(isDuplicateOf existing e)) news
    simp only [Bool.not_not] at hperm
    exact hperm
  · intro hn
    subst hn
    simp [hu, hd, hs]
  · intro he
    subst he
    have hfalse : ∀ e, isDuplicateOf [] e = false := by
      intro e
      cases hne : normalizeTimestamp e.start <;> simp [isDuplicateOf, hne]
    refine ⟨?_, ?_, ?_⟩
    · rw [hu]
      simp [hfalse]
    · rw [hd]
      simp [hfalse]
    · rw [hs, hd]
      simp [hfalse]

/-- Witness for C1: the spec's own scenario — candidate at 09:00Z is the
duplicate of the existing 09:00+00:00 record, candidate at 10:00Z stays
unique, one entry skipped. -/
theorem filterDuplicateEntries_partition_witness :
    filterDuplicateEntries [demoPayload1, demoPayload2] demoExisting =
      .ok demoDedup ∧
    demoDedup.duplicates = [demoPayload1] ∧
    demoDedup.uniqueEntries = [demoPayload2] ∧
    demoDedup.skippedCount = 1 ∧
    (demoDedup.uniqueEntries ++ demoDedup.duplicates).Perm
      [demoPayload1, demoPayload2] :=
  ⟨by decide, by decide, by decide, by decide,
    (filterDuplicateEntries_partition [demoPayload1, demoPayload2]
      demoExisting demoDedup (by decide)).2.2.2.1⟩

/-- C10: candidates are only compared against the existing records, never
against each other — two candidates with equal normalized starts that
match no existing record both land in `uniqueEntries`, with their full
multiplicity preserved. -/
theorem filterDuplicateEntries_no_intra_batch_comparison
    (news : List TogglTimeEntryPayload) (existing : List ExistingEntry)
    (r : DeduplicationResult) (a b : TogglTimeEntryPayload)
    (h : filterDuplicateEntries news existing = .ok r)
    (ha : a ∈ news) (hb : b ∈ news)
    (hab : normalizeTimestamp a.start = normalizeTimestamp b.start)
    (hda : isDuplicateOf existing a = false)
    (hdb : isDuplicateOf existing b = false) :
    a ∈ r.uniqueEntries ∧ b ∈ r.uniqueEntries ∧
    r.uniqueEntries.count a = news.count a := by
  obtain ⟨hd, hu, hs⟩ :=
    filterDuplicateEntries_ok_characterization news existing r h
  refine ⟨?_, ?_, ?_⟩
  · rw [hu]
    exact List.mem_filter.mpr ⟨ha, by simp [hda]⟩
  · rw [hu]
    exact List.mem_filter.mpr ⟨hb, by simp [hdb]⟩
  · rw [hu]
    exact List.count_filter (by simp [hda])

/-- Witness for C10: two candidates denoting the same instant in two
offset spellings, neither matching the existing 09:00 record, both kept
unique within the same batch. -/
theorem filterDuplicateEntries_no_intra_batch_comparison_witness :
    filterDuplicateEntries [demoPayload2, demoPayload3] demoExisting =
      .ok demoDedup2 ∧
    normalizeTimestamp demoPayload2.start =
      normalizeTimestamp demoPayload3.start ∧
    (demoPayload2 ∈ demoDedup2.uniqueEntries ∧
      demoPayload3 ∈ demoDedup2.uniqueEntries ∧
      demoDedup2.uniqueEntries.count demoPayload2 =
        [demoPayload2, demoPayload3].count demoPayload2) :=
  ⟨by decide, by decide,
    filterDuplicateEntries_no_intra_batch_comparison
      [demoPayload2, demoPayload3] demoExisting demoDedup2
      demoPayload2 demoPayload3 (by decide) (by decide) (by decide)
      (by decide) (by decide) (by decide)⟩

/-! ## Sync-pipeline evaluation lemmas -/

/-- Success-path evaluation of the orchestrator: when the three awaited
stages and the deduplication succeed, the result is assembled from their
values and the creation loop's outcome. -/
theorem syncTimeEntries_success_path (env : SyncEnv)
    (cfg : TempoToTogglConfig) (fromDate toDate : String)
    (ws es : List TempoWorklog) (tes : List ExistingEntry)
    (ded : DeduplicationResult)
    (h1 : env.fetchWorklogs fromDate toDate = .ok ws)
    (h2 : env.enrichWorklogs ws = .ok es)
    (h3 : env.fetchTimeEntries fromDate toDate = .ok tes)
    (h4 : filterDuplicateEntries (transformTempoWorklogsToToggl es cfg)
      tes = .ok ded) :
    syncTimeEntries env cfg fromDate toDate =
      { tempoEntriesFetched := ws.length
        togglEntriesFetched := tes.length
        uniqueEntries := ded.uniqueEntries.length
        duplicatesSkipped := ded.skippedCount
        successfullyCreated :=
          (createTimeEntries env.createTimeEntry ded.uniqueEntries
            ).successCount
        failedToCreate :=
          (createTimeEntries env.createTimeEntry ded.uniqueEntries
            ).failedCount
        errors :=
          (createTimeEntries env.createTimeEntry ded.uniqueEntries
            ).failed.map (fun f => "Failed to create entry: " ++ f.2) } := by
  unfold syncTimeEntries
  rw [h1]
  simp only [Bind.bind, Except.bind]
  rw [h2]
  simp only []
  rw [h3]
  simp only []
  rw [h4]
  rfl

/-- C4: any stage-level failure — source fetch, enrichment collaborator,
or sink fetch — makes `syncTimeEntries` return (not raise) the
zero-counter result whose `errors` list is exactly the one causal
message; the later pipeline steps never contribute to the result. -/
theorem syncTimeEntries_stage_failure (env : SyncEnv)
    (cfg : TempoToTogglConfig) (fromDate toDate : String) (m : String)
    (h : env.fetchWorklogs fromDate toDate = .error m ∨
      (∃ ws, env.fetchWorklogs fromDate toDate = .ok ws ∧
        env.enrichWorklogs ws = .error m) ∨
      (∃ ws es, env.fetchWorklogs fromDate toDate = .ok ws ∧
        env.enrichWorklogs ws = .ok es ∧
        env.fetchTimeEntries fromDate toDate = .error m)) :
    syncTimeEntries env cfg fromDate toDate =
      { tempoEntriesFetched := 0, togglEntriesFetched := 0,
        uniqueEntries := 0, duplicatesSkipped := 0,
        successfullyCreated := 0, failedToCreate := 0,
        errors := [m] } := by
  unfold syncTimeEntries
  rcases h with h1 | ⟨ws, h1, h2⟩ | ⟨ws, es, h1, h2, h3⟩
  · rw [h1]
    rfl
  · rw [h1]
    simp only [Bind.bind, Except.bind]
    rw [h2]
  · rw [h1]
    simp only [Bind.bind, Except.bind]
    rw [h2]
    simp only []
    rw [h3]

/-- Demo environment whose source fetch rejects. -/
def demoFailSourceEnv : SyncEnv :=
  { fetchWorklogs := fun _ _ => .error "boom"
    enrichWorklogs := fun ws => .ok ws
    fetchTimeEntries := fun _ _ => .ok []
    createTimeEntry := fun _ => .error "unused" }

/-- Demo environment whose sink fetch rejects. -/
def demoFailSinkEnv : SyncEnv :=
  { fetchWorklogs := fun _ _ => .ok [demoWorklogKeyed]
    enrichWorklogs := fun ws => .ok ws
    fetchTimeEntries := fun _ _ => .error "sink down"
    createTimeEntry := fun _ => .error "unused" }

/-- Witness for C4: a failing source fetch and a failing sink fetch each
produce the zero result carrying the single causal message. -/
theorem syncTimeEntries_stage_failure_witness :
    syncTimeEntries demoFailSourceEnv demoConfigBare "2025-10-01"
        "2025-10-02" =
      { tempoEntriesFetched := 0, togglEntriesFetched := 0,
        uniqueEntries := 0, duplicatesSkipped := 0,
        successfullyCreated := 0, failedToCreate := 0,
        errors := ["boom"] } ∧
    syncTimeEntries demoFailSinkEnv demoConfigBare "2025-10-01"
        "2025-10-02" =
      { tempoEntriesFetched := 0, togglEntriesFetched := 0,
        uniqueEntries := 0, duplicatesSkipped := 0,
        successfullyCreated := 0, failedToCreate := 0,
        errors := ["sink down"] } :=
  ⟨syncTimeEntries_stage_failure demoFailSourceEnv demoConfigBare
      "2025-10-01" "2025-10-02" "boom" (Or.inl rfl),
    syncTimeEntries_stage_failure demoFailSinkEnv demoConfigBare
      "2025-10-01" "2025-10-02" "sink down"
      (Or.inr (Or.inr ⟨[demoWorklogKeyed], [demoWorklogKeyed], rfl, rfl,
        rfl⟩))⟩

/-! ## C7 — empty source fetch -/

/-- Deduplicating an empty candidate list still normalizes every existing
record (to build the lookup set) and, when that succeeds, returns empty
outputs. -/
theorem filterDuplicateEntries_nil_candidates (tes : List ExistingEntry)
    (ns : List String)
    (h : mapMExcept (fun entry => normalizeTimestamp entry.start) tes =
      .ok ns) :
    filterDuplicateEntries [] tes =
      .ok { uniqueEntries := [], duplicates := [], skippedCount := 0 } := by
  unfold filterDuplicateEntries
  rw [h]
  rfl

/-- Demo environment: empty source, one existing sink record. -/
def demoEmptySourceEnv : SyncEnv :=
  { fetchWorklogs := fun _ _ => .ok []
    enrichWorklogs := fun ws => .ok ws
    fetchTimeEntries := fun _ _ => .ok demoExisting
    createTimeEntry := fun _ => .error "unused" }

/-- Demo environment: empty source and empty sink. -/
def demoEmptyBothEnv : SyncEnv :=
  { demoEmptySourceEnv with fetchTimeEntries := fun _ _ => .ok [] }

/-- Counterexample to C7 as stated: with an empty source fetch but a
non-empty sink fetch, the returned `togglEntriesFetched` counter is 1,
so not all six counters are zero. -/
theorem syncTimeEntries_empty_source_counterexample :
    demoEmptySourceEnv.fetchWorklogs "2025-10-01" "2025-10-02" = .ok [] ∧
    (syncTimeEntries demoEmptySourceEnv demoConfigBare "2025-10-01"
      "2025-10-02").togglEntriesFetched = 1 ∧
    syncTimeEntries demoEmptySourceEnv demoConfigBare "2025-10-01"
        "2025-10-02" ≠
      { tempoEntriesFetched := 0, togglEntriesFetched := 0,
        uniqueEntries := 0, duplicatesSkipped := 0,
        successfullyCreated := 0, failedToCreate := 0, errors := [] } := by
  refine ⟨rfl, ?_, ?_⟩ <;> decide

/-- C7 (amended): when the source fetch returns an empty list and the
remaining stage-level steps succeed (enrichment maps the empty batch to
the empty batch, the sink fetch succeeds and its records' timestamps
normalize), the result has empty `errors` and every counter zero except
`togglEntriesFetched`, which equals the number of fetched sink records —
so all six counters are 0 exactly when the sink fetch is also empty. -/
theorem syncTimeEntries_empty_source (env : SyncEnv)
    (cfg : TempoToTogglConfig) (fromDate toDate : String)
    (tes : List ExistingEntry) (ns : List String)
    (h1 : env.fetchWorklogs fromDate toDate = .ok [])
    (h2 : env.enrichWorklogs [] = .ok [])
    (h3 : env.fetchTimeEntries fromDate toDate = .ok tes)
    (h4 : mapMExcept (fun entry => normalizeTimestamp entry.start) tes =
      .ok ns) :
    syncTimeEntries env cfg fromDate toDate =
      { tempoEntriesFetched := 0, togglEntriesFetched := tes.length,
        uniqueEntries := 0, duplicatesSkipped := 0,
        successfullyCreated := 0, failedToCreate := 0, errors := [] } := by
  have h5 : filterDuplicateEntries
      (transformTempoWorklogsToToggl [] cfg) tes =
      .ok { uniqueEntries := [], duplicates := [], skippedCount := 0 } :=
    filterDuplicateEntries_nil_candidates tes ns h4
  rw [syncTimeEntries_success_path env cfg fromDate toDate [] [] tes
    { uniqueEntries := [], duplicates := [], skippedCount := 0 }
    h1 h2 h3 h5]
  rfl

/-- Witness for the amended C7: empty source with one sink record gives
`togglEntriesFetched = 1` and zeros elsewhere; empty source and empty
sink give the all-zero result. -/
theorem syncTimeEntries_empty_source_witness :
    syncTimeEntries demoEmptySourceEnv demoConfigBare "2025-10-01"
        "2025-10-02" =
      { tempoEntriesFetched := 0, togglEntriesFetched := 1,
        uniqueEntries := 0, duplicatesSkipped := 0,
        successfullyCreated := 0, failedToCreate := 0, errors := [] } ∧
    syncTimeEntries demoEmptyBothEnv demoConfigBare "2025-10-01"
        "2025-10-02" =
      { tempoEntriesFetched := 0, togglEntriesFetched := 0,
        uniqueEntries := 0, duplicatesSkipped := 0,
        successfullyCreated := 0, failedToCreate := 0, errors := [] } :=
  ⟨syncTimeEntries_empty_source demoEmptySourceEnv demoConfigBare
      "2025-10-01" "2025-10-02" demoExisting
      ["2025-10-01T09:00:00.000Z"] rfl rfl rfl (by decide),
    syncTimeEntries_empty_source demoEmptyBothEnv demoConfigBare
      "2025-10-01" "2025-10-02" [] [] rfl rfl rfl rfl⟩

/-! ## C5 — creation failures are isolated -/

/-- Characterization of the sequential creation loop: the failures are
exactly the entries whose creation call rejects, paired with their
messages in input order; the two counters count the successful and the
failed calls; and counters and list lengths agree. -/
theorem createTimeEntries_characterization
    (createOne : TogglTimeEntryPayload → Except String TogglTimeEntry) :
    ∀ entries : List TogglTimeEntryPayload,
    (createTimeEntries createOne entries).failed =
      entries.filterMap (fun e => match createOne e with
        | .error m => some (e, m)
        | .ok _ => none) ∧
    (createTimeEntries createOne entries).successCount =
      entries.countP (fun e => (createOne e).isOk) ∧
    (createTimeEntries createOne entries).failedCount =
      entries.countP (fun e => !(createOne e).isOk) ∧
    (createTimeEntries createOne entries).failed.length =
      (createTimeEntries createOne entries).failedCount ∧
    (createTimeEntries createOne entries).successCount +
      (createTimeEntries createOne entries).failedCount =
      entries.length := by
  intro entries
  induction entries with
  | nil => simp [createTimeEntries]
  | cons e rest ih =>
    obtain ⟨f1, f2, f3, f4, f5⟩ := ih
    cases hce : createOne e with
    | ok c =>
      have hr : createTimeEntries createOne (e :: rest) =
          { success := c :: (createTimeEntries createOne rest).success
            failed := (createTimeEntries createOne rest).failed
            successCount :=
              (createTimeEntries createOne rest).successCount + 1
            failedCount := (createTimeEntries createOne rest).failedCount
            } := by
        simp only [createTimeEntries, hce]
      refine ⟨?_, ?_, ?_, ?_, ?_⟩
      · rw [hr]
        simp [List.filterMap_cons, hce, f1]
      · rw [hr]
        simp [List.countP_cons, hce, Except.isOk, Except.toBool, f2]
      · rw [hr]
        simp [List.countP_cons, hce, Except.isOk, Except.toBool, f3]
      · rw [hr]
        simp [f4]
      · rw [hr]
        simp only [List.length_cons]
        omega
    | error m =>
      have hr : createTimeEntries createOne (e :: rest) =
          { success := (createTimeEntries createOne rest).success
            failed := (e, m) :: (createTimeEntries createOne rest).failed
            successCount := (createTimeEntries createOne rest).successCount
            failedCount :=
              (createTimeEntries createOne rest).failedCount + 1 } := by
        simp only [createTimeEntries, hce]
      refine ⟨?_, ?_, ?_, ?_, ?_⟩
      · rw [hr]
        simp [List.filterMap_cons, hce, f1]
      · rw [hr]
        simp [List.countP_cons, hce, Except.isOk, Except.toBool, f2]
      · rw [hr]
        simp [List.countP_cons, hce, Except.isOk, Except.toBool, f3]
      · rw [hr]
        simp [f4]
      · rw [hr]
        simp only [List.length_cons]
        omega

/-- C5: on the success path, individual creation failures are not fatal —
the failed creations are exactly the rejected calls in input order, each
contributing one `"Failed to create entry: {message}"` string to the
result's `errors` and one unit to `failedToCreate`, while every other
creation still proceeds (success and failure counts partition the batch);
in particular one failure among three unique entries yields 2 created,
1 failed, 1 error string. -/
theorem sync_creation_failures_isolated (env : SyncEnv)
    (cfg : TempoToTogglConfig) (fromDate toDate : String)
    (ws es : List TempoWorklog) (tes : List ExistingEntry)
    (ded : DeduplicationResult)
    (h1 : env.fetchWorklogs fromDate toDate = .ok ws)
    (h2 : env.enrichWorklogs ws = .ok es)
    (h3 : env.fetchTimeEntries fromDate toDate = .ok tes)
    (h4 : filterDuplicateEntries (transformTempoWorklogsToToggl es cfg)
      tes = .ok ded) :
    (syncTimeEntries env cfg fromDate toDate).errors =
      (createTimeEntries env.createTimeEntry ded.uniqueEntries).failed.map
        (fun f => "Failed to create entry: " ++ f.2) ∧
    (syncTimeEntries env cfg fromDate toDate).failedToCreate =
      (createTimeEntries env.createTimeEntry ded.uniqueEntries
        ).failedCount ∧
    (syncTimeEntries env cfg fromDate toDate).successfullyCreated =
      (createTimeEntries env.createTimeEntry ded.uniqueEntries
        ).successCount ∧
    (createTimeEntries env.createTimeEntry ded.uniqueEntries).failed =
      ded.uniqueEntries.filterMap (fun e =>
        match env.createTimeEntry e with
        | .error m => some (e, m)
        | .ok _ => none) ∧
    (createTimeEntries env.createTimeEntry ded.uniqueEntries
      ).successCount =
      ded.uniqueEntries.countP (fun e => (env.createTimeEntry e).isOk) ∧
    (createTimeEntries env.createTimeEntry ded.uniqueEntries
      ).failedCount =
      ded.uniqueEntries.countP (fun e => !(env.createTimeEntry e).isOk) ∧
    (createTimeEntries env.createTimeEntry ded.uniqueEntries
        ).successCount +
      (createTimeEntries env.createTimeEntry ded.uniqueEntries
        ).failedCount = ded.uniqueEntries.length ∧
    (ded.uniqueEntries.length = 3 →
      (createTimeEntries env.createTimeEntry ded.uniqueEntries
        ).failedCount = 1 →
      (createTimeEntries env.createTimeEntry ded.uniqueEntries
        ).successCount = 2 ∧
      (syncTimeEntries env cfg fromDate toDate).errors.length = 1) := by
  have hsp := syncTimeEntries_success_path env cfg fromDate toDate ws es
    tes ded h1 h2 h3 h4
  obtain ⟨c1, c2, c3, c4, c5⟩ :=
    createTimeEntries_characterization env.createTimeEntry
      ded.uniqueEntries
  refine ⟨by rw [hsp], by rw [hsp], by rw [hsp], c1, c2, c3, c5, ?_⟩
  intro hlen hfail
  constructor
  · omega
  · rw [hsp]
    simp only [List.length_map]
    rw [c4, hfail]

/-- Demo worklog "A" (no issue, start 2025-10-02T09:00:00Z). -/
def demoWorklogA : TempoWorklog :=
  { demoWorklogPlain with description := some "A",
                          startDateTimeUtc := "2025-10-02T09:00:00Z" }

/-- Demo worklog "B" (no issue, start 2025-10-02T10:00:00Z). -/
def demoWorklogB : TempoWorklog :=
  { demoWorklogPlain with description := some "B",
                          startDateTimeUtc := "2025-10-02T10:00:00Z" }

/-- Demo worklog "C" (no issue, start 2025-10-02T11:00:00Z). -/
def demoWorklogC : TempoWorklog :=
  { demoWorklogPlain with description := some "C",
                          startDateTimeUtc := "2025-10-02T11:00:00Z" }

/-- Demo environment: three worklogs, empty sink, creation rejecting
exactly the payload described "B". -/
def demoCreationEnv : SyncEnv :=
  { fetchWorklogs := fun _ _ =>
      .ok [demoWorklogA, demoWorklogB, demoWorklogC]
    enrichWorklogs := fun ws => .ok ws
    fetchTimeEntries := fun _ _ => .ok []
    createTimeEntry := fun p =>
      if p.description == "B" then .error "boom" else .ok { id := 7 } }

/-- The three transformed demo payloads. -/
def demoTransformedABC : List TogglTimeEntryPayload :=
  transformTempoWorklogsToToggl [demoWorklogA, demoWorklogB, demoWorklogC]
    demoConfigBare

/-- Deduplication result of the three demo payloads against an empty
sink. -/
def demoDedupABC : DeduplicationResult :=
  { uniqueEntries := demoTransformedABC, duplicates := [],
    skippedCount := 0 }

/-- Witness for C5: one failure among three creations gives 2 created,
1 failed, and the single formatted error string. -/
theorem sync_creation_failures_isolated_witness :
    (syncTimeEntries demoCreationEnv demoConfigBare "2025-10-01"
      "2025-10-03").successfullyCreated = 2 ∧
    (syncTimeEntries demoCreationEnv demoConfigBare "2025-10-01"
      "2025-10-03").failedToCreate = 1 ∧
    (syncTimeEntries demoCreationEnv demoConfigBare "2025-10-01"
      "2025-10-03").errors = ["Failed to create entry: boom"] := by
  have h := sync_creation_failures_isolated demoCreationEnv demoConfigBare
    "2025-10-01" "2025-10-03" [demoWorklogA, demoWorklogB, demoWorklogC]
    [demoWorklogA, demoWorklogB, demoWorklogC] [] demoDedupABC
    rfl rfl rfl (by decide)
  refine ⟨?_, ?_, ?_⟩
  · rw [h.2.2.1]
    decide
  · rw [h.2.1]
    decide
  · rw [h.1]
    decide

/-! ## C9 — best-effort enrichment -/

/-- Reduction of the URL-collection step on a worklog carrying an
issue. -/
theorem addIssueUrl_some (acc : List String) (w : TempoWorklog) (i : Issue)
    (h : w.issue = some i) :
    addIssueUrl acc w =
      if (i.self != "" && !(acc.contains i.self)) = true then
        acc ++ [i.self]
      else acc := by
  unfold addIssueUrl
  rw [h]

/-- Reduction of the URL-collection step on a worklog without an
issue. -/
theorem addIssueUrl_none (acc : List String) (w : TempoWorklog)
    (h : w.issue = none) : addIssueUrl acc w = acc := by
  unfold addIssueUrl
  rw [h]

/-- Collecting URLs only ever adds to the accumulator. -/
theorem mem_foldl_addIssueUrl (x : String) :
    ∀ (ws : List TempoWorklog) (acc : List String), x ∈ acc →
      x ∈ ws.foldl addIssueUrl acc := by
  intro ws
  induction ws with
  | nil =>
    intro acc h
    simpa using h
  | cons w ws ih =>
    intro acc h
    rw [List.foldl_cons]
    apply ih
    cases hwi : w.issue with
    | none =>
      rw [addIssueUrl_none acc w hwi]
      exact h
    | some i =>
      rw [addIssueUrl_some acc w i hwi]
      by_cases hc : (i.self != "" && !(acc.contains i.self)) = true
      · rw [if_pos hc]
        exact List.mem_append_left _ h
      · rw [if_neg hc]
        exact h

/-- Every truthy issue URL of the batch ends up in the collected set. -/
theorem self_mem_foldl_addIssueUrl :
    ∀ (ws : List TempoWorklog) (acc : List String) (w : TempoWorklog)
      (i : Issue), w ∈ ws → w.issue = some i → i.self ≠ "" →
      i.self ∈ ws.foldl addIssueUrl acc := by
  intro ws
  induction ws with
  | nil =>
    intro acc w i hw
    exact absurd hw (List.not_mem_nil w)
  | cons w' ws ih =>
    intro acc w i hw hwi hne
    rw [List.foldl_cons]
    rcases List.mem_cons.mp hw with rfl | hmem
    · apply mem_foldl_addIssueUrl
      rw [addIssueUrl_some acc w i hwi]
      cases hcc : acc.contains i.self with
      | true =>
        rw [if_neg (by simp [hcc])]
        have hmem' := hcc
        simp at hmem'
        exact hmem'
      | false =>
        rw [if_pos (by simp [hne, hcc])]
        exact List.mem_append_right _ (List.mem_singleton.mpr rfl)
    · exact ih (addIssueUrl acc w') w i hmem hwi hne

/-- The collected URL set is duplicate-free: the `Set` never fetches one
URL twice. -/
theorem nodup_foldl_addIssueUrl :
    ∀ (ws : List TempoWorklog) (acc : List String), acc.Nodup →
      (ws.foldl addIssueUrl acc).Nodup := by
  intro ws
  induction ws with
  | nil =>
    intro acc h
    simpa using h
  | cons w ws ih =>
    intro acc h
    rw [List.foldl_cons]
    apply ih
    cases hwi : w.issue with
    | none =>
      rw [addIssueUrl_none acc w hwi]
      exact h
    | some i =>
      rw [addIssueUrl_some acc w i hwi]
      by_cases hc : (i.self != "" && !(acc.contains i.self)) = true
      · rw [if_pos hc]
        simp only [Bool.and_eq_true, bne_iff_ne, Bool.not_eq_true] at hc
        have hnm : i.self ∉ acc := by
          have hc2 := hc.2
          simp at hc2
          exact hc2
        simp [List.nodup_append, h, hnm]
      · rw [if_neg hc]
        exact h

/-- Looking a member up in the association list built by mapping a
resolver over the key list yields the resolver's value. -/
theorem lookup_map_pair (resolve : String → IssueDetails) :
    ∀ (urls : List String) (u : String), u ∈ urls →
      (urls.map (fun x => (x, resolve x))).lookup u = some (resolve u) := by
  intro urls
  induction urls with
  | nil =>
    intro u h
    exact absurd h (List.not_mem_nil u)
  | cons v urls ih =>
    intro u h
    by_cases he : u = v
    · subst he
      simp [List.lookup]
    · have hb : (u == v) = false := by simp [he]
      rw [List.map_cons]
      simp only [List.lookup, hb]
      rcases List.mem_cons.mp h with h1 | h2
      · exact absurd h1 he
      · exact ih u h2

/-- C9: enrichment is best-effort and never raises — it is a total map
producing one output per input in order; each distinct issue URL is
collected exactly once (the fetched key list is duplicate-free);
worklogs without a truthy issue reference pass through unchanged; a
failed lookup yields the empty-string resolution for its reference
instead of aborting the batch; a successful lookup attaches the fetched
key and summary. -/
theorem enrichWorklogs_best_effort
    (fetchJiraIssue : String → Except String IssueDetails)
    (worklogs : List TempoWorklog) :
    (enrichWorklogsWithIssueDetails fetchJiraIssue worklogs).length =
      worklogs.length ∧
    (uniqueIssueUrls worklogs).Nodup ∧
    List.Forall₂ (fun w o =>
      (w.issue = none → o = w) ∧
      (∀ i, w.issue = some i → i.self = "" → o = w) ∧
      (∀ i e, w.issue = some i → i.self ≠ "" →
        fetchJiraIssue i.self = .error e →
        o = { w with issue := some { i with key := some "",
                                            summary := some "" } }) ∧
      (∀ i d, w.issue = some i → i.self ≠ "" →
        fetchJiraIssue i.self = .ok d →
        o = { w with issue := some { i with key := some d.key,
                                            summary := some d.summary } }))
      worklogs (enrichWorklogsWithIssueDetails fetchJiraIssue worklogs) := by
  refine ⟨?_, ?_, ?_⟩
  · simp [enrichWorklogsWithIssueDetails]
  · exact nodup_foldl_addIssueUrl worklogs [] List.nodup_nil
  · unfold enrichWorklogsWithIssueDetails
    rw [List.forall₂_map_right_iff, List.forall₂_same]
    intro w hw
    refine ⟨?_, ?_, ?_, ?_⟩
    · intro hwi
      simp [hwi]
    · intro i hwi hself
      simp [hwi, hself]
    · intro i e hwi hne herr
      have hmem : i.self ∈ uniqueIssueUrls worklogs :=
        self_mem_foldl_addIssueUrl worklogs [] w i hw hwi hne
      have hlk := lookup_map_pair (fun url =>
        match fetchJiraIssue url with
        | .ok details => details
        | .error _ => { key := "", summary := "" })
        (uniqueIssueUrls worklogs) i.self hmem
      simp only [herr] at hlk
      simp [hwi, hne, hlk]
    · intro i d hwi hne hok
      have hmem : i.self ∈ uniqueIssueUrls worklogs :=
        self_mem_foldl_addIssueUrl worklogs [] w i hw hwi hne
      have hlk := lookup_map_pair (fun url =>
        match fetchJiraIssue url with
        | .ok details => details
        | .error _ => { key := "", summary := "" })
        (uniqueIssueUrls worklogs) i.self hmem
      simp only [hok] at hlk
      simp [hwi, hne, hlk]

/-- Demo lookup collaborator: rejects `https://x/issue/9`, resolves every
other URL. -/
def demoFetchIssue : String → Except String IssueDetails :=
  fun url =>
    if url == "https://x/issue/9" then .error "404 Not Found"
    else .ok { key := "WEB-1", summary := "summary text" }

/-- Demo enrichment batch: a resolvable reference, a failing reference,
and a worklog without a reference. -/
def demoBatch : List TempoWorklog :=
  [demoWorklogKeyed, demoWorklogBare, demoWorklogPlain]

/-- The keyed demo issue after a successful enrichment lookup. -/
def demoIssueResolved : Issue :=
  { demoIssueKeyed with key := some "WEB-1", summary := some "summary text" }

/-- The bare demo issue after its lookup failed. -/
def demoIssueEmptied : Issue :=
  { demoIssueBare with key := some "", summary := some "" }

/-- Witness for C9: the failing lookup gets empty-string details, the
successful one gets the fetched details, the reference-free worklog is
unchanged, and the batch shape is preserved. -/
theorem enrichWorklogs_best_effort_witness :
    (enrichWorklogsWithIssueDetails demoFetchIssue demoBatch).length = 3 ∧
    (uniqueIssueUrls demoBatch).Nodup ∧
    enrichWorklogsWithIssueDetails demoFetchIssue demoBatch =
      [{ demoWorklogKeyed with issue := some demoIssueResolved },
       { demoWorklogBare with issue := some demoIssueEmptied },
       demoWorklogPlain] := by
  refine ⟨?_, (enrichWorklogs_best_effort demoFetchIssue demoBatch).2.1,
    by decide⟩
  rw [(enrichWorklogs_best_effort demoFetchIssue demoBatch).1]
  decide
